import Mathlib

/-!
Shallow embedding of `node/network/availability-distribution/src/session_cache.rs`
(the `SessionCache` of the polkadot availability-distribution subsystem).

Modelling conventions:
* `Hash`, `SessionIndex`, `ValidatorId`, `AuthorityDiscoveryId` are opaque
  identifiers; they are embedded as `Nat`.
* `ValidatorIndex`/`GroupIndex` wrap `u32` in the source; the `usize → u32`
  casts (`i as u32`) are embedded as `% 2 ^ 32`.
* The two `LruCache`s (crate `lru`) are embedded as association lists with the
  most-recently-used entry first, together with a capacity.  `get`/`get_mut`
  move a present entry to the front (as the crate does); `put` inserts at the
  front and drops the least-recently-used entry when over capacity.
* The asynchronous externals (runtime queries, keystore) are embedded as
  explicit parameters: the value the runtime would answer with, and the
  keystore as a boolean function on validator ids.  The number of external
  queries issued (runtime requests plus keystore lookups) is returned
  alongside the result.
* The `thread_rng` shuffle of the validator groups is embedded by passing the
  post-shuffle groups `shuffled` as a parameter; theorems quantify over all
  outcomes that are group-wise permutations of the input.
* Rust panics (`.expect(...)`) are embedded as a distinct `fatal` outcome;
  `Result`/`Error` values are embedded by an `Error` inductive whose
  `ReportBadValidators` payload carries the static message as an enum.
-/

deriving instance DecidableEq for Except

namespace SessionCacheModel

/-- Message payloads of `Error::ReportBadValidators(&str)` in the source:
`sessionNotCached` stands for the string "Session is not cached.",
`groupNotFound` for "Validator group not found". -/
inductive BadReportMsg where
  | sessionNotCached
  | groupNotFound
deriving DecidableEq

/-- The error cases of `error::Error` reachable from the embedded code:
`NoSuchSession` and `ReportBadValidators`.  (Transport failures of
`recv_runtime` are not embedded: the runtime oracle is passed in as a value,
which models the runs where the transport succeeds.) -/
inductive Error where
  | NoSuchSession (index : Nat)
  | ReportBadValidators (msg : BadReportMsg)
deriving DecidableEq

/-- Messages of the two `.expect(...)` panics in `query_info_from_runtime`:
`noGroupForValidator` stands for "Every validator should be in a validator
group. qed.", `noDiscoveryKey` for "There should be a discovery key for each
validator of each validator group. qed.". -/
inductive PanicMsg where
  | noGroupForValidator
  | noDiscoveryKey
deriving DecidableEq

/-! ### The `lru::LruCache`, embedded as an MRU-first association list -/

/-- First value stored under key `k`, scanning MRU-first. -/
def lookupEntries {V : Type} (k : Nat) : List (Nat × V) → Option V
  | [] => none
  | e :: es => if e.1 = k then some e.2 else lookupEntries k es

/-- Drop every entry whose key is `k`. -/
def removeKey {V : Type} (k : Nat) : List (Nat × V) → List (Nat × V)
  | [] => []
  | e :: es => if e.1 = k then removeKey k es else e :: removeKey k es

/-- `lru::LruCache`: a capacity and the entries, most-recently-used first. -/
structure Lru (V : Type) where
  cap : Nat
  entries : List (Nat × V)
deriving DecidableEq

/-- Read a value without touching recency (the crate's `peek`). -/
def Lru.lookup {V : Type} (c : Lru V) (k : Nat) : Option V :=
  lookupEntries k c.entries

/-- Recency effect of the crate's `get`/`get_mut`: a present entry moves to
the front; a miss changes nothing. -/
def Lru.promote {V : Type} (c : Lru V) (k : Nat) : Lru V :=
  match c.lookup k with
  | none => c
  | some v => ⟨c.cap, (k, v) :: removeKey k c.entries⟩

/-- The crate's `put`: insert (or update) `k ↦ v` as most recently used and
drop the least-recently-used entry if the capacity is exceeded. -/
def Lru.put {V : Type} (c : Lru V) (k : Nat) (v : V) : Lru V :=
  ⟨c.cap, ((k, v) :: removeKey k c.entries).take c.cap⟩

/-- In-place update through the reference returned by `get_mut`: the value
stored under `k` changes, positions do not. -/
def Lru.setValue {V : Type} (c : Lru V) (k : Nat) (v : V) : Lru V :=
  ⟨c.cap, c.entries.map (fun e => if e.1 = k then (k, v) else e)⟩

/-! ### Data entities -/

/-- `SessionInfo` of `session_cache.rs`: localized per-session view.
`validator_groups` holds `AuthorityDiscoveryId`s after the
shuffle-and-lookup of `query_info_from_runtime`. -/
structure SessionInfo where
  session_index : Nat
  validator_groups : List (List Nat)
  our_index : Nat
  our_group : Nat
deriving DecidableEq

/-- `BadValidators` report: session, group and the discovery identities of
the misbehaving validators, in the order reported. -/
structure BadValidators where
  session_index : Nat
  group_index : Nat
  bad_validators : List Nat
deriving DecidableEq

/-- The fields of `polkadot_primitives::v1::SessionInfo` that
`query_info_from_runtime` destructures: the validator list, the discovery
keys aligned by validator index, and the groups as lists of validator
indices. -/
structure GlobalSessionInfo where
  validators : List Nat
  discovery_keys : List Nat
  validator_groups : List (List Nat)
deriving DecidableEq

/-- `SessionCache` state: the two LRU caches.  The keystore handle is
read-only and is passed to the operations as a function. -/
structure SessionCache where
  session_index_cache : Lru Nat
  session_info_cache : Lru SessionInfo
deriving DecidableEq

/-- `SessionCache::new`: both caches empty, capacities 5 and 2. -/
def SessionCache.new : SessionCache :=
  { session_index_cache := ⟨5, []⟩, session_info_cache := ⟨2, []⟩ }

/-! ### `get_our_index` -/

/-- Loop of `SessionCache::get_our_index` from position `i`: first validator
the keystore holds a key for, as `ValidatorIndex(i as u32)`, paired with the
number of keystore queries made. -/
def get_our_index_from (keystore : Nat → Bool) : Nat → List Nat → Option Nat × Nat
  | _, [] => (none, 0)
  | i, v :: vs =>
    if keystore v then (some (i % 2 ^ 32), 1)
    else
      let r := get_our_index_from keystore (i + 1) vs
      (r.1, r.2 + 1)

/-- `SessionCache::get_our_index`: scan `validators` in index order, query
the keystore for each, return the first match (cast to `u32`). -/
def get_our_index (keystore : Nat → Bool) (validators : List Nat) : Option Nat × Nat :=
  get_our_index_from keystore 0 validators

/-! ### `query_info_from_runtime` -/

/-- The `find_map` over `validator_groups.iter().enumerate()` determining
`our_group`: index (cast to `u32`) of the first group containing
`our_index`. -/
def find_our_group_from (our_index : Nat) : Nat → List (List Nat) → Option Nat
  | _, [] => none
  | i, g :: gs =>
    if our_index ∈ g then some (i % 2 ^ 32) else find_our_group_from our_index (i + 1) gs

/-- `our_group` determination, started at group index 0. -/
def find_our_group (our_index : Nat) (groups : List (List Nat)) : Option Nat :=
  find_our_group_from our_index 0 groups

/-- Map one group of validator indices through `discovery_keys`; `none`
embeds the "There should be a discovery key ..." panic on a missing key. -/
def map_group (keys : List Nat) : List Nat → Option (List Nat)
  | [] => some []
  | i :: rest =>
    match keys[i]?, map_group keys rest with
    | some k, some out => some (k :: out)
    | _, _ => none

/-- Map every group through `discovery_keys` (the `map`/`collect` over the
shuffled groups). -/
def map_groups (keys : List Nat) : List (List Nat) → Option (List (List Nat))
  | [] => some []
  | g :: gs =>
    match map_group keys g, map_groups keys gs with
    | some g', some gs' => some (g' :: gs')
    | _, _ => none

/-- Result of `query_info_from_runtime`: a panic (`fatal`), an `Err`, an
`Ok(None)` (`notValidator`) or an `Ok(Some info)`. -/
inductive QueryOutcome where
  | fatal (msg : PanicMsg)
  | err (e : Error)
  | notValidator
  | ok (info : SessionInfo)
deriving DecidableEq

/-- `SessionCache::query_info_from_runtime`.  `runtimeData` is what
`request_session_info_ctx` answers (`none` embeds a missing session),
`shuffled` is the outcome of the `thread_rng` shuffle of
`validator_groups`.  Returns the outcome and the number of external queries
(the one runtime request plus the keystore lookups). -/
def query_info_from_runtime (keystore : Nat → Bool) (runtimeData : Option GlobalSessionInfo)
    (shuffled : List (List Nat)) (session_index : Nat) : QueryOutcome × Nat :=
  match runtimeData with
  | none => (.err (.NoSuchSession session_index), 1)
  | some d =>
    match get_our_index keystore d.validators with
    | (none, kq) => (.notValidator, 1 + kq)
    | (some our_index, kq) =>
      match find_our_group our_index d.validator_groups with
      | none => (.fatal .noGroupForValidator, 1 + kq)
      | some our_group =>
        match map_groups d.discovery_keys shuffled with
        | none => (.fatal .noDiscoveryKey, 1 + kq)
        | some groups =>
          (.ok { session_index := session_index, validator_groups := groups,
                 our_index := our_index, our_group := our_group }, 1 + kq)

/-! ### `with_session_info` -/

/-- Result of `with_session_info` with callback result type `R`:
a panic, an `Err`, an `Ok(None)` (`notValidator`) or an `Ok(Some r)`
(`found r`). -/
inductive Outcome (R : Type) where
  | fatal (msg : PanicMsg)
  | err (e : Error)
  | notValidator
  | found (r : R)
deriving DecidableEq

/-- `SessionCache::with_session_info`.  `runtimeIndex` is what
`request_session_index_for_child_ctx` would answer on a first-level miss.
Returns the new cache state, the number of external queries issued, and the
outcome. -/
def with_session_info {R : Type} (keystore : Nat → Bool) (with_info : SessionInfo → R)
    (runtimeIndex : Nat) (runtimeData : Option GlobalSessionInfo)
    (shuffled : List (List Nat)) (s : SessionCache) (parent : Nat) :
    SessionCache × Nat × Outcome R :=
  let step1 : Nat × Lru Nat × Nat :=
    match s.session_index_cache.lookup parent with
    | some index => (index, s.session_index_cache.promote parent, 0)
    | none => (runtimeIndex, s.session_index_cache.put parent runtimeIndex, 1)
  let session_index := step1.1
  let s1 : SessionCache := { s with session_index_cache := step1.2.1 }
  let q1 := step1.2.2
  match s1.session_info_cache.lookup session_index with
  | some info =>
    ({ s1 with session_info_cache := s1.session_info_cache.promote session_index },
     q1, .found (with_info info))
  | none =>
    match query_info_from_runtime keystore runtimeData shuffled session_index with
    | (.err e, q2) => (s1, q1 + q2, .err e)
    | (.fatal m, q2) => (s1, q1 + q2, .fatal m)
    | (.notValidator, q2) => (s1, q1 + q2, .notValidator)
    | (.ok info, q2) =>
      ({ s1 with session_info_cache := s1.session_info_cache.put session_index info },
       q1 + q2, .found (with_info info))

/-! ### `report_bad` -/

/-- `SessionCache::report_bad`.  `get_mut` on the session cache promotes a
present entry even when the subsequent group lookup fails; the mutation
through the returned reference is `setValue`.  Returns the new state and the
`Result<(), Error>`. -/
def report_bad (s : SessionCache) (report : BadValidators) : SessionCache × Except Error Unit :=
  match s.session_info_cache.lookup report.session_index with
  | none => (s, .error (.ReportBadValidators .sessionNotCached))
  | some info =>
    let promoted := s.session_info_cache.promote report.session_index
    match info.validator_groups[report.group_index]? with
    | none =>
      ({ s with session_info_cache := promoted },
       .error (.ReportBadValidators .groupNotFound))
    | some group =>
      let kept := group.filter (fun v => decide (v ∉ report.bad_validators))
      let new_group := report.bad_validators ++ kept
      let info' := { info with
        validator_groups := info.validator_groups.set report.group_index new_group }
      ({ s with session_info_cache := promoted.setValue report.session_index info' },
       .ok ())

/-! ### Operation sequences (for the reachable-state invariant) -/

/-- One external interaction with the cache: a `with_session_info` call
(with its oracle answers and shuffle outcome) or a `report_bad` call. -/
inductive Op where
  | query (keystore : Nat → Bool) (runtimeIndex : Nat) (runtimeData : Option GlobalSessionInfo)
      (shuffled : List (List Nat)) (parent : Nat)
  | report (r : BadValidators)

/-- State transition of one operation (callback result discarded). -/
def applyOp (s : SessionCache) : Op → SessionCache
  | .query keystore runtimeIndex runtimeData shuffled parent =>
    (with_session_info keystore id runtimeIndex runtimeData shuffled s parent).1
  | .report r => (report_bad s r).1

/-- Run a sequence of operations. -/
def runOps (s : SessionCache) (ops : List Op) : SessionCache :=
  ops.foldl applyOp s

/-! ### Concrete states used by the counterexamples and witnesses -/

/-- A cache holding one session (index 7) with the single group `[10]`. -/
def exCacheSingle : SessionCache :=
  { session_index_cache := ⟨5, []⟩,
    session_info_cache := ⟨2, [(7, ⟨7, [[10]], 0, 0⟩)]⟩ }

/-- A cache holding session 7 with the group `[1, 2, 3, 4]` (the spec's
`[A, B, C, D]` example). -/
def exCacheABCD : SessionCache :=
  { session_index_cache := ⟨5, []⟩,
    session_info_cache := ⟨2, [(7, ⟨7, [[1, 2, 3, 4]], 0, 0⟩)]⟩ }

/-- A cache holding two sessions; session 2 is the least recently used. -/
def exCacheTwo : SessionCache :=
  { session_index_cache := ⟨5, [(40, 1)]⟩,
    session_info_cache := ⟨2, [(1, ⟨1, [[5]], 0, 0⟩), (2, ⟨2, [[6]], 0, 0⟩)]⟩ }

/-- A cache where context 42 resolves to session 7 and session 7 is cached. -/
def exCacheHit : SessionCache :=
  { session_index_cache := ⟨5, [(42, 7)]⟩,
    session_info_cache := ⟨2, [(7, ⟨7, [[8, 9]], 0, 1⟩)]⟩ }

/-- A keystore holding exactly the key of validator id 100. -/
def exKeystore : Nat → Bool := fun v => v == 100

/-- Raw session data: validators `[100, 101]`, discovery keys `[200, 201]`,
groups `[[1, 0]]`. -/
def exGlobal : GlobalSessionInfo :=
  { validators := [100, 101], discovery_keys := [200, 201], validator_groups := [[1, 0]] }

/-- Raw session data whose only group does not contain validator index 0. -/
def exGlobalNoGroup : GlobalSessionInfo :=
  { validators := [100], discovery_keys := [200], validator_groups := [[5]] }

/-- Raw session data with an empty discovery-key table. -/
def exGlobalNoKey : GlobalSessionInfo :=
  { validators := [100], discovery_keys := [], validator_groups := [[0]] }

/-- A concrete operation sequence exercising both entry points. -/
def exOps : List Op :=
  [.query exKeystore 7 (some exGlobal) [[0, 1]] 42,
   .query exKeystore 8 (some exGlobal) [[1, 0]] 43,
   .report ⟨7, 0, [200]⟩,
   .query exKeystore 9 (some exGlobal) [[0, 1]] 44,
   .report ⟨9, 0, [201]⟩]

/-- Size/capacity invariant maintained by every operation: the capacities
`new` chose (5 and 2), and entry counts within capacity. -/
def CacheInv (s : SessionCache) : Prop :=
  s.session_index_cache.cap = 5 ∧ s.session_info_cache.cap = 2 ∧
  s.session_index_cache.entries.length ≤ 5 ∧ s.session_info_cache.entries.length ≤ 2

end SessionCacheModel

namespace SessionCacheModel

/-! ## Helper lemmas about the LRU embedding -/

theorem lookupEntries_removeKey_ne {V : Type} (k k' : Nat) (l : List (Nat × V)) (h : k' ≠ k) :
    lookupEntries k' (removeKey k l) = lookupEntries k' l := by
  induction l with
  | nil => rfl
  | cons e es ih =>
    by_cases he : e.1 = k
    · have hne : ¬ (k = k') := fun hk => h hk.symm
      simp [removeKey, lookupEntries, he, hne, ih]
    · simp [removeKey, lookupEntries, he, ih]

theorem removeKey_eq_of_lookup_none {V : Type} (k : Nat) (l : List (Nat × V)) :
    lookupEntries k l = none → removeKey k l = l := by
  induction l with
  | nil => intro _; rfl
  | cons e es ih =>
    intro h
    by_cases he : e.1 = k
    · simp [lookupEntries, he] at h
    · simp only [lookupEntries, if_neg he] at h
      simp [removeKey, he, ih h]

theorem length_removeKey_le {V : Type} (k : Nat) (l : List (Nat × V)) :
    (removeKey k l).length ≤ l.length := by
  induction l with
  | nil => simp [removeKey]
  | cons e es ih =>
    by_cases he : e.1 = k
    · simp only [removeKey, if_pos he, List.length_cons]
      omega
    · simp only [removeKey, if_neg he, List.length_cons]
      omega

theorem length_removeKey_lt {V : Type} (k : Nat) (l : List (Nat × V)) (v : V) :
    lookupEntries k l = some v → (removeKey k l).length < l.length := by
  induction l with
  | nil => intro h; simp [lookupEntries] at h
  | cons e es ih =>
    intro h
    by_cases he : e.1 = k
    · simp only [removeKey, if_pos he, List.length_cons]
      have := length_removeKey_le k es
      omega
    · simp only [lookupEntries, if_neg he] at h
      simp only [removeKey, if_neg he, List.length_cons]
      have := ih h
      omega

theorem removeKey_removeKey {V : Type} (k : Nat) (l : List (Nat × V)) :
    removeKey k (removeKey k l) = removeKey k l := by
  induction l with
  | nil => rfl
  | cons e es ih =>
    by_cases he : e.1 = k
    · simp [removeKey, he, ih]
    · simp [removeKey, he, ih]

theorem map_setEntry_removeKey {V : Type} (k : Nat) (v : V) (l : List (Nat × V)) :
    (removeKey k l).map (fun e => if e.1 = k then (k, v) else e) = removeKey k l := by
  induction l with
  | nil => rfl
  | cons e es ih =>
    by_cases he : e.1 = k
    · simp [removeKey, he, ih]
    · simp [removeKey, he, ih]

theorem lookupEntries_map_set_self {V : Type} (k : Nat) (v : V) (l : List (Nat × V)) (w : V) :
    lookupEntries k l = some w →
    lookupEntries k (l.map (fun e => if e.1 = k then (k, v) else e)) = some v := by
  induction l with
  | nil => intro h; simp [lookupEntries] at h
  | cons e es ih =>
    intro h
    by_cases he : e.1 = k
    · simp [lookupEntries, he]
    · simp only [lookupEntries, if_neg he] at h
      simp [lookupEntries, he, ih h]

theorem lookupEntries_map_set_ne {V : Type} (k k' : Nat) (v : V) (l : List (Nat × V))
    (h : k' ≠ k) :
    lookupEntries k' (l.map (fun e => if e.1 = k then (k, v) else e)) = lookupEntries k' l := by
  induction l with
  | nil => rfl
  | cons e es ih =>
    by_cases he : e.1 = k
    · have hne : ¬ (e.1 = k') := by rw [he]; exact fun hk => h hk.symm
      have hne2 : ¬ (k = k') := fun hk => h hk.symm
      simp [lookupEntries, he, hne, hne2, ih]
    · simp [lookupEntries, he, ih]

theorem Lru.cap_promote {V : Type} (c : Lru V) (k : Nat) : (c.promote k).cap = c.cap := by
  cases h : c.lookup k <;> simp [Lru.promote, h]

theorem Lru.cap_put {V : Type} (c : Lru V) (k : Nat) (v : V) : (c.put k v).cap = c.cap := rfl

theorem Lru.cap_setValue {V : Type} (c : Lru V) (k : Nat) (v : V) :
    (c.setValue k v).cap = c.cap := rfl

theorem Lru.lookup_promote {V : Type} (c : Lru V) (k0 k : Nat) :
    (c.promote k0).lookup k = c.lookup k := by
  cases h : c.lookup k0 with
  | none => simp [Lru.promote, h]
  | some v =>
    have h' : lookupEntries k0 c.entries = some v := h
    by_cases hk : k = k0
    · subst hk
      simp [Lru.promote, h, h', Lru.lookup, lookupEntries]
    · have hne : ¬ (k0 = k) := fun hh => hk hh.symm
      simp [Lru.promote, h, h', Lru.lookup, lookupEntries, hne,
            lookupEntries_removeKey_ne k0 k _ hk]

theorem Lru.lookup_put_self {V : Type} (c : Lru V) (k : Nat) (v : V) (h : 0 < c.cap) :
    (c.put k v).lookup k = some v := by
  obtain ⟨n, hn⟩ : ∃ n, c.cap = n + 1 := ⟨c.cap - 1, by omega⟩
  simp [Lru.put, Lru.lookup, hn, List.take_succ_cons, lookupEntries]

theorem Lru.lookup_setValue_self {V : Type} (c : Lru V) (k : Nat) (v w : V)
    (h : c.lookup k = some w) : (c.setValue k v).lookup k = some v :=
  lookupEntries_map_set_self k v c.entries w h

theorem Lru.lookup_setValue_ne {V : Type} (c : Lru V) (k k' : Nat) (v : V) (h : k' ≠ k) :
    (c.setValue k v).lookup k' = c.lookup k' :=
  lookupEntries_map_set_ne k k' v c.entries h

theorem Lru.length_promote_le {V : Type} (c : Lru V) (k : Nat) :
    (c.promote k).entries.length ≤ c.entries.length := by
  cases h : c.lookup k with
  | none => simp [Lru.promote, h]
  | some v =>
    simp only [Lru.promote, h, List.length_cons]
    have := length_removeKey_lt k c.entries v h
    omega

theorem Lru.length_put_le_cap {V : Type} (c : Lru V) (k : Nat) (v : V) :
    (c.put k v).entries.length ≤ c.cap := by
  simp [Lru.put]

theorem Lru.length_setValue {V : Type} (c : Lru V) (k : Nat) (v : V) :
    (c.setValue k v).entries.length = c.entries.length := by
  simp [Lru.setValue]

end SessionCacheModel

namespace SessionCacheModel

/-! ## Helper lemmas about `report_bad` -/

theorem Lru.eq_of_parts {V : Type} (c d : Lru V) (h1 : c.cap = d.cap)
    (h2 : c.entries = d.entries) : c = d := by
  cases c; cases d; cases h1; cases h2; rfl

theorem SessionCache.eq_of_caches (c d : SessionCache)
    (h1 : c.session_index_cache = d.session_index_cache)
    (h2 : c.session_info_cache = d.session_info_cache) : c = d := by
  cases c; cases d; cases h1; cases h2; rfl

theorem report_bad_miss (s : SessionCache) (r : BadValidators)
    (h : s.session_info_cache.lookup r.session_index = none) :
    report_bad s r = (s, .error (.ReportBadValidators .sessionNotCached)) := by
  simp [report_bad, h]

theorem report_bad_bad_group (s : SessionCache) (r : BadValidators) (info : SessionInfo)
    (hs : s.session_info_cache.lookup r.session_index = some info)
    (hg : info.validator_groups[r.group_index]? = none) :
    report_bad s r =
      ({ s with session_info_cache := s.session_info_cache.promote r.session_index },
       .error (.ReportBadValidators .groupNotFound)) := by
  simp [report_bad, hs, hg]

theorem report_bad_ok_eq (s : SessionCache) (r : BadValidators) (info : SessionInfo)
    (g : List Nat)
    (hs : s.session_info_cache.lookup r.session_index = some info)
    (hg : info.validator_groups[r.group_index]? = some g) :
    report_bad s r =
      ({ s with session_info_cache :=
          ((s.session_info_cache.promote r.session_index).setValue r.session_index
            ({ info with validator_groups :=
                (info.validator_groups.set r.group_index
                  (r.bad_validators ++
                    g.filter (fun v => decide (v ∉ r.bad_validators)))) })) },
       .ok ()) := by
  simp [report_bad, hs, hg]

/-- Entries of the session cache after a successful report: the reported
session's entry sits at the front with the updated value. -/
theorem Lru.promote_setValue_entries {V : Type} (c : Lru V) (k : Nat) (v₀ v : V)
    (h : c.lookup k = some v₀) :
    ((c.promote k).setValue k v).entries = (k, v) :: removeKey k c.entries ∧
    ((c.promote k).setValue k v).cap = c.cap := by
  have h' : lookupEntries k c.entries = some v₀ := h
  constructor
  · simp [Lru.promote, Lru.lookup, h', Lru.setValue, map_setEntry_removeKey]
  · simp [Lru.promote, Lru.lookup, h', Lru.setValue]

/-- The reorder of the group: remove every reported identity, prepend the
report in order.  Under the presence and no-duplicates side conditions this
is a permutation of the original group. -/
theorem bad_prepend_perm (bad g : List Nat) (hsub : ∀ b ∈ bad, b ∈ g)
    (hnb : bad.Nodup) (hng : g.Nodup) :
    (bad ++ g.filter (fun v => decide (v ∉ bad))).Perm g := by
  have h2 : g.filter (fun v => decide (v ∉ bad)) =
      g.filter (fun v => !decide (v ∈ bad)) :=
    List.filter_congr (fun x _ => by simp [decide_not])
  have h3 : bad.Perm (g.filter (fun v => decide (v ∈ bad))) := by
    rw [List.perm_ext_iff_of_nodup hnb (hng.filter _)]
    intro a
    simp only [List.mem_filter, decide_eq_true_eq]
    exact ⟨fun ha => ⟨hsub a ha, ha⟩, fun ha => ha.2⟩
  rw [h2]
  exact (h3.append_right _).trans (List.filter_append_perm _ g)

theorem getElem?_lt_length {α : Type} (l : List α) (i : Nat) (a : α)
    (h : l[i]? = some a) : i < l.length := by
  by_contra hcon
  push_neg at hcon
  rw [List.getElem?_eq_none hcon] at h
  cases h

/-! ## Claims about `report_bad` -/

/-- **C1, counterexample.**  The claim says `report_bad` never edits group
membership ("a pure reorder, never a membership edit").  But on session 7
with the single group `[10]`, reporting the identity `20` - which is not a
member - succeeds and produces the group `[20, 10]`: the distinct member
`20` has been added, so the multiset of members changed. -/
theorem C1_report_bad_membership_edit_counterexample :
    (report_bad exCacheSingle ⟨7, 0, [20]⟩).2 = .ok () ∧
    ((report_bad exCacheSingle ⟨7, 0, [20]⟩).1.session_info_cache.lookup 7).map
        SessionInfo.validator_groups = some [[20, 10]] ∧
    (20 ∈ ([20, 10] : List Nat)) ∧ ¬ (20 ∈ ([10] : List Nat)) := by
  decide

/-- **C1 (amended).**  For every cached session and in-range group index,
`report_bad` removes every identity present in `bad_validators` from its
position and prepends the reported identities, in the order given, to the
front of the group.  Provided every reported identity is already a member
of the group (and report and group are duplicate-free), this is a pure
reorder: the new group is a permutation of the old one; in particular for
group `[A, B, C, D]` and report `[B]` the post-report group is exactly
`[B, A, C, D]` (see the witness). -/
theorem C1_report_bad_reorders (s : SessionCache) (si gi : Nat) (bad : List Nat)
    (info : SessionInfo) (g : List Nat)
    (hs : s.session_info_cache.lookup si = some info)
    (hg : info.validator_groups[gi]? = some g)
    (hsub : ∀ b ∈ bad, b ∈ g) (hnb : bad.Nodup) (hng : g.Nodup) :
    ∃ info',
      (report_bad s ⟨si, gi, bad⟩).2 = .ok () ∧
      (report_bad s ⟨si, gi, bad⟩).1.session_info_cache.lookup si = some info' ∧
      info'.validator_groups[gi]? =
        some (bad ++ g.filter (fun v => decide (v ∉ bad))) ∧
      (bad ++ g.filter (fun v => decide (v ∉ bad))).Perm g := by
  have hlen : gi < info.validator_groups.length := getElem?_lt_length _ _ _ hg
  rw [report_bad_ok_eq s ⟨si, gi, bad⟩ info g hs hg]
  refine ⟨{ info with validator_groups :=
      (info.validator_groups.set gi (bad ++ g.filter (fun v => decide (v ∉ bad)))) },
    rfl, ?_, ?_, bad_prepend_perm bad g hsub hnb hng⟩
  · exact Lru.lookup_setValue_self _ si _ info
      ((Lru.lookup_promote _ si si).trans hs)
  · exact List.getElem?_set_eq_of_lt _ hlen

/-- Witness for C1: the spec's own example, group `[A, B, C, D] = [1, 2, 3, 4]`,
report `[B] = [2]`; the post-report group is `[2, 1, 3, 4]`. -/
theorem C1_report_bad_reorders_witness :
    (∃ info',
      (report_bad exCacheABCD ⟨7, 0, [2]⟩).2 = .ok () ∧
      (report_bad exCacheABCD ⟨7, 0, [2]⟩).1.session_info_cache.lookup 7 = some info' ∧
      info'.validator_groups[0]? =
        some ([2] ++ [1, 2, 3, 4].filter (fun v => decide (v ∉ ([2] : List Nat)))) ∧
      ([2] ++ [1, 2, 3, 4].filter (fun v => decide (v ∉ ([2] : List Nat)))).Perm
        [1, 2, 3, 4]) ∧
    [2] ++ [1, 2, 3, 4].filter (fun v => decide (v ∉ ([2] : List Nat))) = [2, 1, 3, 4] :=
  ⟨C1_report_bad_reorders exCacheABCD 7 0 [2] ⟨7, [[1, 2, 3, 4]], 0, 0⟩ [1, 2, 3, 4]
    (by decide) (by decide) (by decide) (by decide) (by decide), by decide⟩

/-- **C2, counterexample.**  The claim says the cache state, including LRU
recency order, is unchanged when `report_bad` fails.  For the out-of-range
group case this is false: `get_mut` has already promoted the reported
session's entry to most-recently-used.  With sessions `[1, 2]` cached (1
most recent) and a report against session 2 with group index 99, the call
fails with the "Validator group not found" error, yet the recency order
changes from `[1, 2]` to `[2, 1]`. -/
theorem C2_report_bad_recency_counterexample :
    (report_bad exCacheTwo ⟨2, 99, []⟩).2 =
      .error (.ReportBadValidators .groupNotFound) ∧
    (report_bad exCacheTwo ⟨2, 99, []⟩).1 ≠ exCacheTwo ∧
    (report_bad exCacheTwo ⟨2, 99, []⟩).1.session_info_cache.entries.map Prod.fst =
      [2, 1] ∧
    exCacheTwo.session_info_cache.entries.map Prod.fst = [1, 2] := by
  decide

/-- **C2 (amended).**  A report against an uncached session returns the
"Session is not cached." error and leaves the state entirely unchanged.  A
report against a cached session with an out-of-range group index returns
the "Validator group not found" error; the first-level cache and the
contents of the second-level cache (every key's value and the capacity)
are unchanged, but the reported session's entry has been promoted to
most-recently-used. -/
theorem C2_report_bad_error_cases (s : SessionCache) (si gi : Nat) (bad : List Nat) :
    (s.session_info_cache.lookup si = none →
      report_bad s ⟨si, gi, bad⟩ =
        (s, .error (.ReportBadValidators .sessionNotCached))) ∧
    (∀ info, s.session_info_cache.lookup si = some info →
      info.validator_groups[gi]? = none →
      report_bad s ⟨si, gi, bad⟩ =
        ({ s with session_info_cache := s.session_info_cache.promote si },
         .error (.ReportBadValidators .groupNotFound)) ∧
      (∀ k, (s.session_info_cache.promote si).lookup k =
        s.session_info_cache.lookup k) ∧
      (s.session_info_cache.promote si).cap = s.session_info_cache.cap) := by
  constructor
  · intro h
    exact report_bad_miss s ⟨si, gi, bad⟩ h
  · intro info hs hg
    exact ⟨report_bad_bad_group s ⟨si, gi, bad⟩ info hs hg,
           fun k => Lru.lookup_promote _ si k, Lru.cap_promote _ si⟩

/-- Witness for C2: both error cases at concrete states. -/
theorem C2_report_bad_error_cases_witness :
    report_bad exCacheSingle ⟨99, 0, []⟩ =
      (exCacheSingle, .error (.ReportBadValidators .sessionNotCached)) ∧
    (report_bad exCacheTwo ⟨2, 99, []⟩ =
      ({ exCacheTwo with
          session_info_cache := exCacheTwo.session_info_cache.promote 2 },
       .error (.ReportBadValidators .groupNotFound)) ∧
     (∀ k, (exCacheTwo.session_info_cache.promote 2).lookup k =
       exCacheTwo.session_info_cache.lookup k) ∧
     (exCacheTwo.session_info_cache.promote 2).cap =
       exCacheTwo.session_info_cache.cap) :=
  ⟨(C2_report_bad_error_cases exCacheSingle 99 0 []).1 (by decide),
   (C2_report_bad_error_cases exCacheTwo 2 99 []).2 ⟨2, [[6]], 0, 0⟩ (by decide) (by decide)⟩

end SessionCacheModel

namespace SessionCacheModel

/-- Repeating the promote-and-set of a successful report is the identity:
the entry is already at the front with the same value. -/
theorem Lru.promote_setValue_again {V : Type} (c : Lru V) (k : Nat) (v₀ v : V)
    (h : c.lookup k = some v₀) :
    (((c.promote k).setValue k v).promote k).setValue k v = (c.promote k).setValue k v ∧
    ((c.promote k).setValue k v).lookup k = some v := by
  have hCe := Lru.promote_setValue_entries c k v₀ v h
  have hl : ((c.promote k).setValue k v).lookup k = some v := by
    rw [Lru.lookup, hCe.1]
    simp [lookupEntries]
  refine ⟨?_, hl⟩
  have hCe2 := Lru.promote_setValue_entries ((c.promote k).setValue k v) k v v hl
  apply Lru.eq_of_parts
  · exact hCe2.2
  · rw [hCe2.1, hCe.1]
    simp [removeKey, removeKey_removeKey]

/-- **C8.**  `report_bad` is idempotent per report: whenever a report
succeeds, applying the exact same report a second time leaves the whole
cache state (and the returned result) exactly as after the first
application: each reported identity is removed and re-prepended again,
ending front-most, and the promoted entry is already most-recently-used. -/
theorem C8_report_bad_idempotent (s : SessionCache) (r : BadValidators)
    (h : (report_bad s r).2 = .ok ()) :
    report_bad (report_bad s r).1 r = report_bad s r := by
  cases hs : s.session_info_cache.lookup r.session_index with
  | none =>
    rw [report_bad_miss s r hs] at h
    simp at h
  | some info =>
    cases hg : info.validator_groups[r.group_index]? with
    | none =>
      rw [report_bad_bad_group s r info hs hg] at h
      simp at h
    | some g =>
      have hlen : r.group_index < info.validator_groups.length :=
        getElem?_lt_length _ _ _ hg
      have hfilter : (r.bad_validators ++
            g.filter (fun v => decide (v ∉ r.bad_validators))).filter
              (fun v => decide (v ∉ r.bad_validators)) =
          g.filter (fun v => decide (v ∉ r.bad_validators)) := by
        rw [List.filter_append,
            List.filter_eq_nil_iff.mpr (fun a ha => by simp [ha]),
            List.filter_eq_self.mpr (fun a ha => (List.mem_filter.mp ha).2),
            List.nil_append]
      have hagain := Lru.promote_setValue_again s.session_info_cache r.session_index info
        ({ info with validator_groups :=
            (info.validator_groups.set r.group_index (r.bad_validators ++
              g.filter (fun v => decide (v ∉ r.bad_validators)))) }) hs
      have hg2 : ({ info with validator_groups :=
            (info.validator_groups.set r.group_index (r.bad_validators ++
              g.filter (fun v => decide (v ∉ r.bad_validators)))) } :
          SessionInfo).validator_groups[r.group_index]? =
          some (r.bad_validators ++ g.filter (fun v => decide (v ∉ r.bad_validators))) :=
        List.getElem?_set_eq_of_lt _ hlen
      rw [report_bad_ok_eq s r info g hs hg]
      rw [report_bad_ok_eq _ r _ _ hagain.2 hg2]
      have hinfo : ({ info with validator_groups :=
            ((info.validator_groups.set r.group_index (r.bad_validators ++
              g.filter (fun v => decide (v ∉ r.bad_validators)))).set r.group_index
              (r.bad_validators ++ ((r.bad_validators ++
                g.filter (fun v => decide (v ∉ r.bad_validators))).filter
                  (fun v => decide (v ∉ r.bad_validators))))) } : SessionInfo) =
          { info with validator_groups :=
            (info.validator_groups.set r.group_index (r.bad_validators ++
              g.filter (fun v => decide (v ∉ r.bad_validators)))) } := by
        rw [hfilter, List.set_set]
      simp only [Prod.mk.injEq]
      refine ⟨?_, trivial⟩
      apply SessionCache.eq_of_caches
      · rfl
      · show ((((s.session_info_cache.promote r.session_index).setValue r.session_index
            _).promote r.session_index).setValue r.session_index _) = _
        rw [hinfo]
        exact hagain.1

/-- **C10.**  Frame property of a successful `report_bad`: only the group at
the reported `group_index` of the reported session's `SessionInfo` changes.
The first-level cache is untouched, every other cached session resolves to
the same `SessionInfo`, and within the reported session `session_index`,
`our_index`, `our_group`, the number of groups and every other group are
unchanged. -/
theorem C10_report_bad_frame (s : SessionCache) (si gi : Nat) (bad : List Nat)
    (h : (report_bad s ⟨si, gi, bad⟩).2 = .ok ()) :
    (report_bad s ⟨si, gi, bad⟩).1.session_index_cache = s.session_index_cache ∧
    (∀ k, k ≠ si →
      (report_bad s ⟨si, gi, bad⟩).1.session_info_cache.lookup k =
        s.session_info_cache.lookup k) ∧
    ∃ info info',
      s.session_info_cache.lookup si = some info ∧
      (report_bad s ⟨si, gi, bad⟩).1.session_info_cache.lookup si = some info' ∧
      info'.session_index = info.session_index ∧
      info'.our_index = info.our_index ∧
      info'.our_group = info.our_group ∧
      info'.validator_groups.length = info.validator_groups.length ∧
      (∀ j, j ≠ gi → info'.validator_groups[j]? = info.validator_groups[j]?) := by
  cases hs : s.session_info_cache.lookup si with
  | none =>
    rw [report_bad_miss s ⟨si, gi, bad⟩ hs] at h
    simp at h
  | some info =>
    cases hg : info.validator_groups[gi]? with
    | none =>
      rw [report_bad_bad_group s ⟨si, gi, bad⟩ info hs hg] at h
      simp at h
    | some g =>
      rw [report_bad_ok_eq s ⟨si, gi, bad⟩ info g hs hg]
      refine ⟨rfl, ?_, info,
        { info with validator_groups :=
          (info.validator_groups.set gi (bad ++ g.filter (fun v => decide (v ∉ bad)))) },
        rfl, ?_, rfl, rfl, rfl, by simp, ?_⟩
      · intro k hk
        rw [Lru.lookup_setValue_ne _ si k _ hk, Lru.lookup_promote]
      · exact Lru.lookup_setValue_self _ si _ info
          ((Lru.lookup_promote _ si si).trans hs)
      · intro j hj
        exact List.getElem?_set_ne (fun he => hj he.symm)

end SessionCacheModel

namespace SessionCacheModel

/-- Witness for C8: repeating the report `[B]` on the `[A, B, C, D]` cache. -/
theorem C8_report_bad_idempotent_witness :
    report_bad (report_bad exCacheABCD ⟨7, 0, [2]⟩).1 ⟨7, 0, [2]⟩ =
      report_bad exCacheABCD ⟨7, 0, [2]⟩ :=
  C8_report_bad_idempotent exCacheABCD ⟨7, 0, [2]⟩ (by decide)

/-- Witness for C10: reporting `[6]` against group 0 of session 2 in the
two-session cache. -/
theorem C10_report_bad_frame_witness :
    (report_bad exCacheTwo ⟨2, 0, [6]⟩).1.session_index_cache =
      exCacheTwo.session_index_cache ∧
    (∀ k, k ≠ 2 →
      (report_bad exCacheTwo ⟨2, 0, [6]⟩).1.session_info_cache.lookup k =
        exCacheTwo.session_info_cache.lookup k) ∧
    ∃ info info',
      exCacheTwo.session_info_cache.lookup 2 = some info ∧
      (report_bad exCacheTwo ⟨2, 0, [6]⟩).1.session_info_cache.lookup 2 = some info' ∧
      info'.session_index = info.session_index ∧
      info'.our_index = info.our_index ∧
      info'.our_group = info.our_group ∧
      info'.validator_groups.length = info.validator_groups.length ∧
      (∀ j, j ≠ 0 → info'.validator_groups[j]? = info.validator_groups[j]?) :=
  C10_report_bad_frame exCacheTwo 2 0 [6] (by decide)

/-! ## Helper lemmas about `with_session_info` -/

/-- After a call that returned `found`, the context resolves in the
first-level cache and the resolved session is in the second-level cache. -/
theorem with_session_info_found_state {R : Type} (ks : Nat → Bool) (f : SessionInfo → R)
    (ri : Nat) (rd : Option GlobalSessionInfo) (sh : List (List Nat)) (s : SessionCache)
    (parent : Nat) (s' : SessionCache) (q : Nat) (r : R)
    (h1 : 0 < s.session_index_cache.cap) (h2 : 0 < s.session_info_cache.cap)
    (h : with_session_info ks f ri rd sh s parent = (s', q, .found r)) :
    ∃ idx info, s'.session_index_cache.lookup parent = some idx ∧
      s'.session_info_cache.lookup idx = some info := by
  cases hp : s.session_index_cache.lookup parent with
  | some idx =>
    cases hi : s.session_info_cache.lookup idx with
    | some info =>
      simp only [with_session_info, hp, hi] at h
      obtain ⟨hs', -, -⟩ := Prod.mk.injEq .. ▸ h
      refine ⟨idx, info, ?_, ?_⟩
      · rw [← hs']
        exact (Lru.lookup_promote _ parent parent).trans hp
      · rw [← hs']
        exact (Lru.lookup_promote _ idx idx).trans hi
    | none =>
      rcases hq : query_info_from_runtime ks rd sh idx with ⟨out, q2⟩
      cases out with
      | fatal m => simp [with_session_info, hp, hi, hq] at h
      | err e => simp [with_session_info, hp, hi, hq] at h
      | notValidator => simp [with_session_info, hp, hi, hq] at h
      | ok info =>
        simp only [with_session_info, hp, hi, hq] at h
        obtain ⟨hs', -, -⟩ := Prod.mk.injEq .. ▸ h
        refine ⟨idx, info, ?_, ?_⟩
        · rw [← hs']
          exact (Lru.lookup_promote _ parent parent).trans hp
        · rw [← hs']
          exact Lru.lookup_put_self _ idx info h2
  | none =>
    cases hi : s.session_info_cache.lookup ri with
    | some info =>
      simp only [with_session_info, hp, hi] at h
      obtain ⟨hs', -, -⟩ := Prod.mk.injEq .. ▸ h
      refine ⟨ri, info, ?_, ?_⟩
      · rw [← hs']
        exact Lru.lookup_put_self _ parent ri h1
      · rw [← hs']
        exact (Lru.lookup_promote _ ri ri).trans hi
    | none =>
      rcases hq : query_info_from_runtime ks rd sh ri with ⟨out, q2⟩
      cases out with
      | fatal m => simp [with_session_info, hp, hi, hq] at h
      | err e => simp [with_session_info, hp, hi, hq] at h
      | notValidator => simp [with_session_info, hp, hi, hq] at h
      | ok info =>
        simp only [with_session_info, hp, hi, hq] at h
        obtain ⟨hs', -, -⟩ := Prod.mk.injEq .. ▸ h
        refine ⟨ri, info, ?_, ?_⟩
        · rw [← hs']
          exact Lru.lookup_put_self _ parent ri h1
        · rw [← hs']
          exact Lru.lookup_put_self _ ri info h2

end SessionCacheModel

namespace SessionCacheModel

/-- **C3.**  Whenever the resolved session index is in the second-level
cache, `with_session_info` applies the callback to the cached
`SessionInfo` and returns its result without any session-info fetch or
re-derivation: on a full hit with zero external queries, and on a
first-level miss with exactly the one session-index query (the entry is
promoted, not overwritten by a fetch).  Consequently, after any call that
returned a result, a second call with the same context - with any oracle
answers - performs zero external queries and again returns a result. -/
theorem C3_cache_hit_uses_cached (R : Type) (ks : Nat → Bool) (f : SessionInfo → R)
    (ri : Nat) (rd : Option GlobalSessionInfo) (sh : List (List Nat)) (s : SessionCache)
    (parent idx : Nat) (info : SessionInfo) :
    (s.session_index_cache.lookup parent = some idx →
      s.session_info_cache.lookup idx = some info →
      with_session_info ks f ri rd sh s parent =
        ({ session_index_cache := s.session_index_cache.promote parent,
           session_info_cache := s.session_info_cache.promote idx }, 0,
         .found (f info))) ∧
    (s.session_index_cache.lookup parent = none →
      s.session_info_cache.lookup ri = some info →
      with_session_info ks f ri rd sh s parent =
        ({ session_index_cache := s.session_index_cache.put parent ri,
           session_info_cache := s.session_info_cache.promote ri }, 1,
         .found (f info))) ∧
    (0 < s.session_index_cache.cap → 0 < s.session_info_cache.cap →
      ∀ s' q r, with_session_info ks f ri rd sh s parent = (s', q, .found r) →
      ∀ (R' : Type) (ks' : Nat → Bool) (f' : SessionInfo → R')
        (ri' : Nat) (rd' : Option GlobalSessionInfo) (sh' : List (List Nat)),
        ∃ s'' r', with_session_info ks' f' ri' rd' sh' s' parent =
          (s'', 0, .found r')) := by
  refine ⟨?_, ?_, ?_⟩
  · intro hp hi
    simp [with_session_info, hp, hi]
  · intro hp hi
    simp [with_session_info, hp, hi]
  · intro h1 h2 s' q r h R' ks' f' ri' rd' sh'
    obtain ⟨idx', info', hpi, hii⟩ :=
      with_session_info_found_state ks f ri rd sh s parent s' q r h1 h2 h
    refine ⟨{ session_index_cache := s'.session_index_cache.promote parent,
              session_info_cache := s'.session_info_cache.promote idx' },
            f' info', ?_⟩
    simp [with_session_info, hpi, hii]

/-- Witness for C3: the hit state `exCacheHit` (context 42 ↦ session 7,
session 7 cached), the first-level-miss state `exCacheSingle` (session 7
cached, no context mapping), and the state after the hit call again. -/
theorem C3_cache_hit_uses_cached_witness :
    (with_session_info exKeystore id 0 none [] exCacheHit 42 =
      ({ session_index_cache := exCacheHit.session_index_cache.promote 42,
         session_info_cache := exCacheHit.session_info_cache.promote 7 }, 0,
       .found (id (⟨7, [[8, 9]], 0, 1⟩ : SessionInfo)))) ∧
    (with_session_info exKeystore id 7 none [] exCacheSingle 42 =
      ({ session_index_cache := exCacheSingle.session_index_cache.put 42 7,
         session_info_cache := exCacheSingle.session_info_cache.promote 7 }, 1,
       .found (id (⟨7, [[10]], 0, 0⟩ : SessionInfo)))) ∧
    (∃ s'' r', with_session_info exKeystore id 0 none []
        ({ session_index_cache := exCacheHit.session_index_cache.promote 42,
           session_info_cache := exCacheHit.session_info_cache.promote 7 }) 42 =
      (s'', 0, .found r')) := by
  have h := C3_cache_hit_uses_cached SessionInfo exKeystore id 0 none [] exCacheHit
    42 7 ⟨7, [[8, 9]], 0, 1⟩
  have hm := C3_cache_hit_uses_cached SessionInfo exKeystore id 7 none [] exCacheSingle
    42 7 ⟨7, [[10]], 0, 0⟩
  have h1 := h.1 (by decide) (by decide)
  exact ⟨h1, hm.2.1 (by decide) (by decide),
    h.2.2 (by decide) (by decide) _ 0 _ h1 SessionInfo exKeystore id 0 none []⟩

/-- **C4.**  When local identity resolution finds no matching validator,
`with_session_info` returns the absent (`Ok(None)`, here `notValidator`)
result, the second-level cache is left exactly as it was (the session index
is not inserted), and the context-to-session-index mapping is (still)
present in the first-level cache. -/
theorem C4_not_a_validator (R : Type) (ks : Nat → Bool) (f : SessionInfo → R)
    (ri : Nat) (rd : Option GlobalSessionInfo) (sh : List (List Nat)) (s : SessionCache)
    (parent idx : Nat) (d : GlobalSessionInfo)
    (hcap : 0 < s.session_index_cache.cap)
    (hidx : (match s.session_index_cache.lookup parent with
              | some i => i
              | none => ri) = idx)
    (h2 : s.session_info_cache.lookup idx = none)
    (hd : rd = some d)
    (hno : (get_our_index ks d.validators).1 = none) :
    (with_session_info ks f ri rd sh s parent).2.2 = Outcome.notValidator ∧
    (with_session_info ks f ri rd sh s parent).1.session_info_cache =
      s.session_info_cache ∧
    (with_session_info ks f ri rd sh s parent).1.session_index_cache.lookup parent =
      some idx := by
  subst hd
  rcases hq : get_our_index ks d.validators with ⟨o, kq⟩
  rw [hq] at hno
  simp at hno
  subst hno
  cases hp : s.session_index_cache.lookup parent with
  | some i =>
    rw [hp] at hidx
    simp at hidx
    subst hidx
    refine ⟨?_, ?_, ?_⟩ <;>
      simp [with_session_info, hp, h2, query_info_from_runtime, hq,
        Lru.lookup_promote]
  | none =>
    rw [hp] at hidx
    simp at hidx
    subst hidx
    refine ⟨?_, ?_, ?_⟩ <;>
      simp [with_session_info, hp, h2, query_info_from_runtime, hq,
        Lru.lookup_put_self _ parent ri hcap]

/-- Witness for C4: a fresh cache, a keystore holding no keys at all. -/
theorem C4_not_a_validator_witness :
    (with_session_info (fun _ => false) id 7 (some exGlobal) [[0, 1]]
      SessionCache.new 42).2.2 = Outcome.notValidator ∧
    (with_session_info (fun _ => false) id 7 (some exGlobal) [[0, 1]]
      SessionCache.new 42).1.session_info_cache =
      SessionCache.new.session_info_cache ∧
    (with_session_info (fun _ => false) id 7 (some exGlobal) [[0, 1]]
      SessionCache.new 42).1.session_index_cache.lookup 42 = some 7 :=
  C4_not_a_validator SessionInfo (fun _ => false) id 7 (some exGlobal) [[0, 1]]
    SessionCache.new 42 7 exGlobal (by decide) (by decide) (by decide) rfl (by decide)

end SessionCacheModel

namespace SessionCacheModel

/-! ## Helper lemmas about `query_info_from_runtime` -/

theorem map_group_eq_map (keys : List Nat) (l : List Nat) (out : List Nat) :
    map_group keys l = some out → out = l.map (fun j => (keys[j]?).getD 0) := by
  induction l generalizing out with
  | nil =>
    intro h
    simp only [map_group, Option.some.injEq] at h
    subst h
    rfl
  | cons i rest ih =>
    intro h
    cases hk : keys[i]? with
    | none => simp [map_group, hk] at h
    | some k =>
      cases hm : map_group keys rest with
      | none => simp [map_group, hk, hm] at h
      | some o =>
        simp only [map_group, hk, hm, Option.some.injEq] at h
        subst h
        simp [hk, ← ih o hm]

theorem map_groups_spec (keys : List Nat) (gs outs : List (List Nat)) :
    map_groups keys gs = some outs →
    outs.length = gs.length ∧
    ∀ (i : Nat) (g : List Nat), gs[i]? = some g →
      ∃ out, outs[i]? = some out ∧ map_group keys g = some out := by
  induction gs generalizing outs with
  | nil =>
    intro h
    simp only [map_groups, Option.some.injEq] at h
    subst h
    exact ⟨rfl, fun i g hg => by simp at hg⟩
  | cons g gs ih =>
    intro h
    cases hmg : map_group keys g with
    | none => simp [map_groups, hmg] at h
    | some og =>
      cases hms : map_groups keys gs with
      | none => simp [map_groups, hmg, hms] at h
      | some os =>
        simp only [map_groups, hmg, hms, Option.some.injEq] at h
        subst h
        obtain ⟨hl, hrest⟩ := ih os hms
        refine ⟨by simp [hl], ?_⟩
        intro i gg hg
        cases i with
        | zero =>
          simp only [List.getElem?_cons_zero, Option.some.injEq] at hg
          subst hg
          exact ⟨og, by simp, hmg⟩
        | succ n =>
          simp only [List.getElem?_cons_succ] at hg
          obtain ⟨out, ho, hmo⟩ := hrest n gg hg
          exact ⟨out, by simpa using ho, hmo⟩

theorem query_info_ok_inv (ks : Nat → Bool) (rd : Option GlobalSessionInfo)
    (sh : List (List Nat)) (si : Nat) (info : SessionInfo)
    (h : (query_info_from_runtime ks rd sh si).1 = .ok info) :
    ∃ d oi kq gidx, rd = some d ∧
      get_our_index ks d.validators = (some oi, kq) ∧
      find_our_group oi d.validator_groups = some gidx ∧
      map_groups d.discovery_keys sh = some info.validator_groups ∧
      info.session_index = si ∧ info.our_index = oi ∧ info.our_group = gidx := by
  cases rd with
  | none => simp [query_info_from_runtime] at h
  | some d =>
    rcases hq : get_our_index ks d.validators with ⟨o, kq⟩
    cases o with
    | none => simp [query_info_from_runtime, hq] at h
    | some oi =>
      cases hf : find_our_group oi d.validator_groups with
      | none => simp [query_info_from_runtime, hq, hf] at h
      | some gidx =>
        cases hm : map_groups d.discovery_keys sh with
        | none => simp [query_info_from_runtime, hq, hf, hm] at h
        | some outs =>
          simp only [query_info_from_runtime, hq, hf, hm, QueryOutcome.ok.injEq] at h
          subst h
          exact ⟨d, oi, kq, gidx, rfl, hq, hf, hm, rfl, rfl, rfl⟩

/-- **C5.**  Whenever a session derivation succeeds, each output group is a
permutation of its input membership: it equals, up to order, the image of
the group's original validator indices under the discovery-key table - for
every outcome of the per-group random shuffle (any group-wise permutation
`sh` of the input groups). -/
theorem C5_group_shuffle_permutation (ks : Nat → Bool) (rd : Option GlobalSessionInfo)
    (sh : List (List Nat)) (si : Nat) (d : GlobalSessionInfo) (info : SessionInfo)
    (hd : rd = some d)
    (hok : (query_info_from_runtime ks rd sh si).1 = .ok info)
    (hlen : sh.length = d.validator_groups.length)
    (hperm : ∀ (j : Nat) (a b : List Nat), sh[j]? = some a →
      d.validator_groups[j]? = some b → a.Perm b) :
    info.validator_groups.length = d.validator_groups.length ∧
    ∀ (i : Nat) (g orig : List Nat), info.validator_groups[i]? = some g →
      d.validator_groups[i]? = some orig →
      g.Perm (orig.map (fun j => (d.discovery_keys[j]?).getD 0)) := by
  obtain ⟨d', oi, kq, gidx, hd', hq, hf, hm, -, -, -⟩ :=
    query_info_ok_inv ks rd sh si info hok
  rw [hd] at hd'
  injection hd' with hd'
  subst hd'
  obtain ⟨hlen2, hspec⟩ := map_groups_spec d.discovery_keys sh info.validator_groups hm
  constructor
  · rw [hlen2, hlen]
  · intro i g orig hg horig
    have hilt : i < sh.length := by
      have := getElem?_lt_length _ _ _ hg
      omega
    cases ha : sh[i]? with
    | none =>
      rw [List.getElem?_eq_none_iff] at ha
      omega
    | some a =>
      obtain ⟨out, hout, hmo⟩ := hspec i a ha
      rw [hg] at hout
      injection hout with hout
      subst hout
      rw [map_group_eq_map d.discovery_keys a _ hmo]
      exact (hperm i a orig ha horig).map _

/-- Witness for C5: data `exGlobal` (group `[1, 0]`), shuffle outcome
`[[0, 1]]`; the derived group `[200, 201]` is a permutation of the image
`[201, 200]` of the original group. -/
theorem C5_group_shuffle_permutation_witness :
    (⟨7, [[200, 201]], 0, 0⟩ : SessionInfo).validator_groups.length =
      exGlobal.validator_groups.length ∧
    ∀ (i : Nat) (g orig : List Nat),
      (⟨7, [[200, 201]], 0, 0⟩ : SessionInfo).validator_groups[i]? = some g →
      exGlobal.validator_groups[i]? = some orig →
      g.Perm (orig.map (fun j => (exGlobal.discovery_keys[j]?).getD 0)) :=
  C5_group_shuffle_permutation exKeystore (some exGlobal) [[0, 1]] 7 exGlobal
    ⟨7, [[200, 201]], 0, 0⟩ rfl (by decide) (by decide)
    (fun j a b hja hjb => by
      cases j with
      | zero =>
        simp only [exGlobal, List.getElem?_cons_zero, Option.some.injEq] at hja hjb
        subst hja
        subst hjb
        decide
      | succ n => simp [exGlobal] at hja)

end SessionCacheModel

namespace SessionCacheModel

/-! ## Claims about `get_our_index` and the fatal invariant checks -/

theorem get_our_index_from_none (ks : Nat → Bool) (l : List Nat)
    (h : ∀ w ∈ l, ks w = false) :
    ∀ st, get_our_index_from ks st l = (none, l.length) := by
  induction l with
  | nil => intro st; rfl
  | cons v vs ih =>
    intro st
    have hv : ks v = false := h v (by simp)
    simp [get_our_index_from, hv, ih (fun w hw => h w (by simp [hw])) (st + 1)]

theorem get_our_index_from_first (ks : Nat → Bool) (l : List Nat) :
    ∀ (i v : Nat), l[i]? = some v → ks v = true →
    (∀ (j w : Nat), j < i → l[j]? = some w → ks w = false) →
    ∀ st, get_our_index_from ks st l = (some ((st + i) % 2 ^ 32), i + 1) := by
  induction l with
  | nil => intro i v hv; simp at hv
  | cons a as ih =>
    intro i v hv hk hprev st
    cases i with
    | zero =>
      simp only [List.getElem?_cons_zero, Option.some.injEq] at hv
      subst hv
      simp [get_our_index_from, hk]
    | succ n =>
      have ha : ks a = false := hprev 0 a (by omega) (by simp)
      have hrec := ih n v (by simpa using hv) hk
        (fun j w hj hw => hprev (j + 1) w (by omega) (by simpa using hw)) (st + 1)
      have harith : st + 1 + n = st + (n + 1) := by omega
      simp [get_our_index_from, ha, hrec, harith]

/-- **C6.**  `get_our_index` scans the validator list in index order,
querying the keystore once per scanned validator.  If position `i` holds
the first validator whose key the keystore has, the result is index `i`
(cast to `u32`) after `i + 1` keystore queries; if no validator matches, it
yields the not-a-validator signal (`none`) after one query per validator. -/
theorem C6_get_our_index_scan (ks : Nat → Bool) (validators : List Nat) (i v : Nat) :
    (validators[i]? = some v → ks v = true →
      (∀ (j w : Nat), j < i → validators[j]? = some w → ks w = false) →
      get_our_index ks validators = (some (i % 2 ^ 32), i + 1)) ∧
    ((∀ w ∈ validators, ks w = false) →
      get_our_index ks validators = (none, validators.length)) := by
  constructor
  · intro hv hk hprev
    have h := get_our_index_from_first ks validators i v hv hk hprev 0
    simpa using h
  · intro h
    exact get_our_index_from_none ks validators h 0

/-- Witness for C6: first match at position 1 after two queries, and the
no-match case at list length queries. -/
theorem C6_get_our_index_scan_witness :
    get_our_index (fun v => v == 100) [1, 100, 101] = (some 1, 2) ∧
    get_our_index (fun v => v == 100) [1, 2, 3] = (none, 3) :=
  ⟨(C6_get_our_index_scan (fun v => v == 100) [1, 100, 101] 1 100).1
      (by decide) (by decide)
      (fun j w hj hw => by
        cases j with
        | zero =>
          simp only [List.getElem?_cons_zero, Option.some.injEq] at hw
          subst hw
          decide
        | succ n => omega),
   (C6_get_our_index_scan (fun v => v == 100) [1, 2, 3] 0 0).2 (by decide)⟩

theorem find_our_group_from_none (oi : Nat) (gs : List (List Nat))
    (h : ∀ g ∈ gs, oi ∉ g) : ∀ st, find_our_group_from oi st gs = none := by
  induction gs with
  | nil => intro st; rfl
  | cons g gs ih =>
    intro st
    have hg : oi ∉ g := h g (by simp)
    simp [find_our_group_from, hg,
      ih (fun g' hg' => h g' (by simp [hg'])) (st + 1)]

theorem find_our_group_from_some (oi : Nat) (gs : List (List Nat)) :
    (∃ g ∈ gs, oi ∈ g) → ∀ st, ∃ gi, find_our_group_from oi st gs = some gi := by
  induction gs with
  | nil => intro h; simp at h
  | cons g gs ih =>
    intro h st
    by_cases hm : oi ∈ g
    · exact ⟨st % 2 ^ 32, by simp [find_our_group_from, hm]⟩
    · have h' : ∃ g' ∈ gs, oi ∈ g' := by
        obtain ⟨g', hg', ho⟩ := h
        rcases List.mem_cons.mp hg' with rfl | hmem
        · exact absurd ho hm
        · exact ⟨g', hmem, ho⟩
      obtain ⟨gi, hgi⟩ := ih h' (st + 1)
      exact ⟨gi, by simp [find_our_group_from, hm, hgi]⟩

theorem map_group_none_of_missing (keys l : List Nat)
    (h : ∃ j ∈ l, keys[j]? = none) : map_group keys l = none := by
  induction l with
  | nil => simp at h
  | cons i rest ih =>
    obtain ⟨j, hj, hk⟩ := h
    rcases List.mem_cons.mp hj with rfl | hmem
    · simp [map_group, hk]
    · cases hki : keys[i]? with
      | none => simp [map_group, hki]
      | some k => simp [map_group, hki, ih ⟨j, hmem, hk⟩]

theorem map_group_some_of_all (keys l : List Nat)
    (h : ∀ j ∈ l, keys[j]? ≠ none) : ∃ out, map_group keys l = some out := by
  induction l with
  | nil => exact ⟨[], rfl⟩
  | cons i rest ih =>
    cases hki : keys[i]? with
    | none => exact absurd hki (h i (by simp))
    | some k =>
      obtain ⟨o, ho⟩ := ih (fun j hj => h j (by simp [hj]))
      exact ⟨k :: o, by simp [map_group, hki, ho]⟩

theorem map_groups_none_of_missing (keys : List Nat) (gs : List (List Nat))
    (h : ∃ g ∈ gs, ∃ j ∈ g, keys[j]? = none) : map_groups keys gs = none := by
  induction gs with
  | nil => simp at h
  | cons g gs ih =>
    obtain ⟨g', hg', hj⟩ := h
    rcases List.mem_cons.mp hg' with rfl | hmem
    · simp [map_groups, map_group_none_of_missing keys g' hj]
    · cases hmg : map_group keys g with
      | none => simp [map_groups, hmg]
      | some og => simp [map_groups, hmg, ih ⟨g', hmem, hj⟩]

theorem map_groups_some_of_all (keys : List Nat) (gs : List (List Nat))
    (h : ∀ g ∈ gs, ∀ j ∈ g, keys[j]? ≠ none) :
    ∃ outs, map_groups keys gs = some outs := by
  induction gs with
  | nil => exact ⟨[], rfl⟩
  | cons g gs ih =>
    obtain ⟨og, hog⟩ := map_group_some_of_all keys g (h g (by simp))
    obtain ⟨os, hos⟩ := ih (fun g' hg' => h g' (by simp [hg']))
    exact ⟨og :: os, by simp [map_groups, hog, hos]⟩

/-- **C7.**  During derivation, once the node is found to be a validator
(`get_our_index` returns `some oi`): if no group contains `oi`, the
derivation aborts with the "Every validator should be in a validator
group" panic; if some group member index lacks a discovery key, it aborts
with the "There should be a discovery key ..." panic; and conversely, when
some group contains `oi` and every member of every (shuffled) group has a
discovery key, neither fatal branch is reachable and a `SessionInfo` is
produced. -/
theorem C7_fatal_invariant_checks (ks : Nat → Bool) (sh : List (List Nat)) (si : Nat)
    (d : GlobalSessionInfo) (oi kq : Nat)
    (hq : get_our_index ks d.validators = (some oi, kq)) :
    ((∀ g ∈ d.validator_groups, oi ∉ g) →
      (query_info_from_runtime ks (some d) sh si).1 = .fatal .noGroupForValidator) ∧
    ((∃ g ∈ d.validator_groups, oi ∈ g) →
      (∃ g ∈ sh, ∃ j ∈ g, d.discovery_keys[j]? = none) →
      (query_info_from_runtime ks (some d) sh si).1 = .fatal .noDiscoveryKey) ∧
    ((∃ g ∈ d.validator_groups, oi ∈ g) →
      (∀ g ∈ sh, ∀ j ∈ g, d.discovery_keys[j]? ≠ none) →
      ∃ info, (query_info_from_runtime ks (some d) sh si).1 = .ok info) := by
  refine ⟨?_, ?_, ?_⟩
  · intro h
    have hf : find_our_group oi d.validator_groups = none :=
      find_our_group_from_none oi d.validator_groups h 0
    simp [query_info_from_runtime, hq, hf]
  · intro hg hmiss
    obtain ⟨gi, hf⟩ := find_our_group_from_some oi d.validator_groups hg 0
    have hf' : find_our_group oi d.validator_groups = some gi := hf
    have hm := map_groups_none_of_missing d.discovery_keys sh hmiss
    simp [query_info_from_runtime, hq, hf', hm]
  · intro hg hall
    obtain ⟨gi, hf⟩ := find_our_group_from_some oi d.validator_groups hg 0
    have hf' : find_our_group oi d.validator_groups = some gi := hf
    obtain ⟨outs, hm⟩ := map_groups_some_of_all d.discovery_keys sh hall
    exact ⟨{ session_index := si, validator_groups := outs,
             our_index := oi, our_group := gi },
           by simp [query_info_from_runtime, hq, hf', hm]⟩

/-- Witness for C7: all three branches at concrete data - a group not
containing our index, an empty discovery-key table, and consistent data. -/
theorem C7_fatal_invariant_checks_witness :
    (query_info_from_runtime exKeystore (some exGlobalNoGroup) [[5]] 7).1 =
      .fatal .noGroupForValidator ∧
    (query_info_from_runtime exKeystore (some exGlobalNoKey) [[0]] 7).1 =
      .fatal .noDiscoveryKey ∧
    ∃ info, (query_info_from_runtime exKeystore (some exGlobal) [[0, 1]] 7).1 =
      .ok info :=
  ⟨(C7_fatal_invariant_checks exKeystore [[5]] 7 exGlobalNoGroup 0 1 (by decide)).1
      (by decide),
   (C7_fatal_invariant_checks exKeystore [[0]] 7 exGlobalNoKey 0 1 (by decide)).2.1
      (by decide) (by decide),
   (C7_fatal_invariant_checks exKeystore [[0, 1]] 7 exGlobal 0 1 (by decide)).2.2
      (by decide) (by decide)⟩

end SessionCacheModel

namespace SessionCacheModel

/-! ## The reachable-state size invariant (C9) -/

/-- Case analysis of the state effect of one `with_session_info` call: the
first-level cache is promoted or written with `put`; the second-level cache
is unchanged, promoted, or written with `put`. -/
theorem with_session_info_state_cases (R : Type) (ks : Nat → Bool) (f : SessionInfo → R)
    (ri : Nat) (rd : Option GlobalSessionInfo) (sh : List (List Nat)) (s : SessionCache)
    (parent : Nat) :
    ((with_session_info ks f ri rd sh s parent).1.session_index_cache =
        s.session_index_cache.promote parent ∨
      (with_session_info ks f ri rd sh s parent).1.session_index_cache =
        s.session_index_cache.put parent ri) ∧
    ((with_session_info ks f ri rd sh s parent).1.session_info_cache =
        s.session_info_cache ∨
      (∃ i, (with_session_info ks f ri rd sh s parent).1.session_info_cache =
        s.session_info_cache.promote i) ∨
      (∃ i info, (with_session_info ks f ri rd sh s parent).1.session_info_cache =
        s.session_info_cache.put i info)) := by
  cases hp : s.session_index_cache.lookup parent with
  | some idx =>
    cases hi : s.session_info_cache.lookup idx with
    | some info =>
      exact ⟨Or.inl (by simp [with_session_info, hp, hi]),
             Or.inr (Or.inl ⟨idx, by simp [with_session_info, hp, hi]⟩)⟩
    | none =>
      rcases hq : query_info_from_runtime ks rd sh idx with ⟨out, q2⟩
      cases out with
      | fatal m =>
        exact ⟨Or.inl (by simp [with_session_info, hp, hi, hq]),
               Or.inl (by simp [with_session_info, hp, hi, hq])⟩
      | err e =>
        exact ⟨Or.inl (by simp [with_session_info, hp, hi, hq]),
               Or.inl (by simp [with_session_info, hp, hi, hq])⟩
      | notValidator =>
        exact ⟨Or.inl (by simp [with_session_info, hp, hi, hq]),
               Or.inl (by simp [with_session_info, hp, hi, hq])⟩
      | ok info =>
        exact ⟨Or.inl (by simp [with_session_info, hp, hi, hq]),
               Or.inr (Or.inr ⟨idx, info, by simp [with_session_info, hp, hi, hq]⟩)⟩
  | none =>
    cases hi : s.session_info_cache.lookup ri with
    | some info =>
      exact ⟨Or.inr (by simp [with_session_info, hp, hi]),
             Or.inr (Or.inl ⟨ri, by simp [with_session_info, hp, hi]⟩)⟩
    | none =>
      rcases hq : query_info_from_runtime ks rd sh ri with ⟨out, q2⟩
      cases out with
      | fatal m =>
        exact ⟨Or.inr (by simp [with_session_info, hp, hi, hq]),
               Or.inl (by simp [with_session_info, hp, hi, hq])⟩
      | err e =>
        exact ⟨Or.inr (by simp [with_session_info, hp, hi, hq]),
               Or.inl (by simp [with_session_info, hp, hi, hq])⟩
      | notValidator =>
        exact ⟨Or.inr (by simp [with_session_info, hp, hi, hq]),
               Or.inl (by simp [with_session_info, hp, hi, hq])⟩
      | ok info =>
        exact ⟨Or.inr (by simp [with_session_info, hp, hi, hq]),
               Or.inr (Or.inr ⟨ri, info, by simp [with_session_info, hp, hi, hq]⟩)⟩

theorem CacheInv_applyOp (s : SessionCache) (op : Op) (h : CacheInv s) :
    CacheInv (applyOp s op) := by
  obtain ⟨hc1, hc2, hl1, hl2⟩ := h
  cases op with
  | report r =>
    cases hs : s.session_info_cache.lookup r.session_index with
    | none =>
      simp only [applyOp, report_bad_miss s r hs]
      exact ⟨hc1, hc2, hl1, hl2⟩
    | some info =>
      cases hg : info.validator_groups[r.group_index]? with
      | none =>
        simp only [applyOp, report_bad_bad_group s r info hs hg]
        refine ⟨hc1, ?_, hl1, ?_⟩
        · rw [Lru.cap_promote]
          exact hc2
        · exact le_trans (Lru.length_promote_le _ _) hl2
      | some g =>
        simp only [applyOp, report_bad_ok_eq s r info g hs hg]
        refine ⟨hc1, ?_, hl1, ?_⟩
        · rw [Lru.cap_setValue, Lru.cap_promote]
          exact hc2
        · rw [Lru.length_setValue]
          exact le_trans (Lru.length_promote_le _ _) hl2
  | query ks ri rd sh parent =>
    obtain ⟨h1, h2⟩ := with_session_info_state_cases SessionInfo ks id ri rd sh s parent
    simp only [applyOp]
    refine ⟨?_, ?_, ?_, ?_⟩
    · rcases h1 with h | h <;> rw [h]
      · rw [Lru.cap_promote]
        exact hc1
      · rw [Lru.cap_put]
        exact hc1
    · rcases h2 with h | ⟨i, h⟩ | ⟨i, info, h⟩ <;> rw [h]
      · exact hc2
      · rw [Lru.cap_promote]
        exact hc2
      · rw [Lru.cap_put]
        exact hc2
    · rcases h1 with h | h <;> rw [h]
      · exact le_trans (Lru.length_promote_le _ _) hl1
      · rw [← hc1]
        exact Lru.length_put_le_cap _ _ _
    · rcases h2 with h | ⟨i, h⟩ | ⟨i, info, h⟩ <;> rw [h]
      · exact hl2
      · exact le_trans (Lru.length_promote_le _ _) hl2
      · rw [← hc2]
        exact Lru.length_put_le_cap _ _ _

theorem CacheInv_runOps (ops : List Op) :
    ∀ s, CacheInv s → CacheInv (runOps s ops) := by
  induction ops with
  | nil => intro s h; exact h
  | cons op ops ih =>
    intro s h
    exact ih (applyOp s op) (CacheInv_applyOp s op h)

/-- **C9.**  After any sequence of operations starting from
`SessionCache.new`, the first-level cache holds at most 5 entries and the
second-level cache at most 2 (both keep the capacities set by `new`); and
a `put` of a fresh key into a full cache keeps the new entry in front and
evicts exactly the least-recently-used (last) entry. -/
theorem C9_cache_bounds (ops : List Op) :
    (runOps SessionCache.new ops).session_index_cache.entries.length ≤ 5 ∧
    (runOps SessionCache.new ops).session_info_cache.entries.length ≤ 2 ∧
    (runOps SessionCache.new ops).session_index_cache.cap = 5 ∧
    (runOps SessionCache.new ops).session_info_cache.cap = 2 ∧
    (∀ {V : Type} (c : Lru V) (k : Nat) (v : V), 0 < c.cap →
      c.lookup k = none → c.entries.length = c.cap →
      (c.put k v).entries = (k, v) :: c.entries.dropLast) := by
  obtain ⟨hc1, hc2, hl1, hl2⟩ :=
    CacheInv_runOps ops SessionCache.new ⟨rfl, rfl, by simp [SessionCache.new], by
      simp [SessionCache.new]⟩
  refine ⟨hl1, hl2, hc1, hc2, ?_⟩
  intro V c k v hcap hnone hfull
  obtain ⟨n, hn⟩ : ∃ n, c.cap = n + 1 := ⟨c.cap - 1, by omega⟩
  have hrk : removeKey k c.entries = c.entries :=
    removeKey_eq_of_lookup_none k c.entries hnone
  simp only [Lru.put, hrk, hn, List.take_succ_cons]
  rw [List.dropLast_eq_take, hfull, hn]
  simp

/-- Witness for C9: the bounds after the concrete sequence `exOps`, and the
eviction shape on a concrete full cache. -/
theorem C9_cache_bounds_witness :
    (runOps SessionCache.new exOps).session_index_cache.entries.length ≤ 5 ∧
    (runOps SessionCache.new exOps).session_info_cache.entries.length ≤ 2 ∧
    ((⟨2, [(3, 30), (4, 40)]⟩ : Lru Nat).put 9 90).entries =
      (9, 90) :: [(3, 30), (4, 40)].dropLast := by
  have h := C9_cache_bounds exOps
  exact ⟨h.1, h.2.1,
    h.2.2.2.2 (⟨2, [(3, 30), (4, 40)]⟩ : Lru Nat) 9 90 (by decide) (by decide) (by decide)⟩

end SessionCacheModel
